import Mathlib

/-!
Verification of the `DropzoneArea` component
(src/src/components/DropzoneArea.tsx of mui-file-dropzone).

The component keeps a list of `FileObject`s (a file handle paired with its
loaded preview data) as React state and reacts to four events: mount-time
hydration of `initialFiles`, `addFiles`, `deleteFile`, and unmount.  Each
handler is embedded below as a pure function from props and the previous
state to the new state together with the list of externally observable
callback invocations (`Event`s), in the order the source fires them.

File handles are modelled as natural numbers and preview data as strings;
the component never inspects either, so any countable carrier is faithful.
-/

/-- The `FileObject` record of src/types: a file handle plus its loaded
preview data (`data` in the source, e.g. a data URL). -/
structure FileObject where
  file : Nat
  data : String
deriving DecidableEq, Inhabited, Repr

/-- The component state of DropzoneArea.tsx: `state = { fileObjects }`. -/
structure DropzoneAreaState where
  fileObjects : List FileObject
deriving DecidableEq, Inhabited, Repr

/-- An entry of the `initialFiles` prop: either a URL string or a raw file
handle (`File | string` in the source). -/
inductive InitialFile where
  | url (s : String)
  | file (f : Nat)
deriving DecidableEq, Repr

/-- The props of DropzoneArea consumed by the handlers under verification.
The callback props `onChange` and `onDelete` are optional in the source
(`if (onChange) ...`), so we record only whether each was supplied; the
invocations themselves are reified as `Event`s. -/
structure Props where
  clearOnUnmount : Bool
  filesLimit : Int
  initialFiles : List InitialFile
  onChangeProvided : Bool
  onDeleteProvided : Bool
deriving DecidableEq, Repr

/-- The fields of `DropzoneArea.defaultProps` in the source. -/
structure DefaultProps where
  clearOnUnmount : Bool
  filesLimit : Int
  initialFiles : List InitialFile
deriving DecidableEq, Repr

/-- Source: `static defaultProps = { clearOnUnmount: true, filesLimit: 3, initialFiles: [] }`. -/
def defaultProps : DefaultProps :=
  { clearOnUnmount := true, filesLimit := 3, initialFiles := [] }

/-- An externally observable effect of a handler: an invocation of the
`onChange` prop (with the current file handles), an invocation of the
`onDelete` prop (with the removed file handle), or the `console.log` of a
caught hydration error. -/
inductive Event where
  | onChange (loadedFiles : List Nat)
  | onDelete (deletedFile : Nat)
  | log
deriving DecidableEq, Repr

/-- Source: `notifyFileChange`, lines 98-105: if the `onChange` prop is
present, call it with `fileObjects.map((fileObject) => fileObject.file)`. -/
def notifyFileChange (props : Props) (st : DropzoneAreaState) : List Event :=
  if props.onChangeProvided then
    [Event.onChange (st.fileObjects.map (fun fileObject => fileObject.file))]
  else
    []

/-- Modelled from the spec: the helpers `createFileFromUrl` and `readFile`
(src/helpers, absent from src/) are the external FileLoader collaborator
that "converts a URL string or raw file handle into file content bytes" and
may fail.  We parametrise over them as fallible functions; the body below
is the callback of `initialFiles.map` in `loadInitialFiles`, lines 113-124:
a string entry is resolved through `createFileFromUrl`, then the file is
read through `readFile`, yielding `{ file, data }`. -/
def resolveInitialFile (createFileFromUrl : String → Except Unit Nat)
    (readFile : Nat → Except Unit String) : InitialFile → Except Unit FileObject
  | InitialFile.url s => do
      let file ← createFileFromUrl s
      let data ← readFile file
      pure { file := file, data := data }
  | InitialFile.file f => do
      let data ← readFile f
      pure { file := f, data := data }

/-- The observable result of `Promise.all` over fallible loads: the list of
all results in input order if every load succeeds, or a rejection if any
load fails. -/
def promiseAll {α β : Type} (f : α → Except Unit β) : List α → Except Unit (List β)
  | [] => Except.ok []
  | a :: as =>
    match f a with
    | Except.error e => Except.error e
    | Except.ok b =>
      match promiseAll f as with
      | Except.error e => Except.error e
      | Except.ok bs => Except.ok (b :: bs)

/-- Source: `loadInitialFiles`, lines 107-137: await the batch of resolved
initial files; on success append them to the previous `fileObjects` and
notify the change; on any failure catch and `console.log` the error,
leaving state untouched and firing no callback. -/
def loadInitialFiles (createFileFromUrl : String → Except Unit Nat)
    (readFile : Nat → Except Unit String) (props : Props)
    (st : DropzoneAreaState) : DropzoneAreaState × List Event :=
  match promiseAll (resolveInitialFile createFileFromUrl readFile) props.initialFiles with
  | Except.ok fileObjs =>
      let st' : DropzoneAreaState := { fileObjects := st.fileObjects ++ fileObjs }
      (st', notifyFileChange props st')
  | Except.error _ => (st, [Event.log])

/-- Source: `componentDidMount` calls `loadInitialFiles` on the initial
state `{ fileObjects: [] }`; this is the state right after mounting. -/
def mountState (createFileFromUrl : String → Except Unit Nat)
    (readFile : Nat → Except Unit String) (props : Props) : DropzoneAreaState :=
  (loadInitialFiles createFileFromUrl readFile props { fileObjects := [] }).1

/-- Source: `addFiles`, lines 139-156: if `filesLimit <= 1` replace the list
with `[newFileObjects[0]]`, otherwise append the batch; then notify the
change.  `List.headI` returns the default element on an empty batch, mirroring
the `undefined` that `newFileObjects[0]` yields there. -/
def addFiles (props : Props) (st : DropzoneAreaState)
    (newFileObjects : List FileObject) : DropzoneAreaState × List Event :=
  let st' : DropzoneAreaState :=
    if props.filesLimit ≤ 1 then
      { fileObjects := [newFileObjects.headI] }
    else
      { fileObjects := st.fileObjects ++ newFileObjects }
  (st', notifyFileChange props st')

/-- Source: the filter callback of `deleteFile`, lines 168-170:
`fileObjects.filter((fileObject, i) => i !== removedFileObjIdx)`, embedded
with an explicit running index `n` (the call site starts it at 0). -/
def filterNotIndex (removedFileObjIdx : Int) (n : Nat) :
    List FileObject → List FileObject
  | [] => []
  | fileObject :: rest =>
    if (n : Int) ≠ removedFileObjIdx then
      fileObject :: filterNotIndex removedFileObjIdx (n + 1) rest
    else
      filterNotIndex removedFileObjIdx (n + 1) rest

/-- Source: `deleteFile`, lines 158-184: drop the entry whose position
equals `removedFileObjIdx`, fire `onDelete` (if provided) with the passed
record's file handle, set the remaining list as state, then notify the
change. -/
def deleteFile (props : Props) (st : DropzoneAreaState)
    (removedFileObj : FileObject) (removedFileObjIdx : Int) :
    DropzoneAreaState × List Event :=
  let remainingFileObjs := filterNotIndex removedFileObjIdx 0 st.fileObjects
  let deleteEvents :=
    if props.onDeleteProvided then [Event.onDelete removedFileObj.file] else []
  let st' : DropzoneAreaState := { fileObjects := remainingFileObjs }
  (st', deleteEvents ++ notifyFileChange props st')

/-- Source: `componentWillUnmount`, lines 85-96: if `clearOnUnmount` is set,
clear the state and notify the change (with the now-empty list); otherwise
do nothing. -/
def componentWillUnmount (props : Props) (st : DropzoneAreaState) :
    DropzoneAreaState × List Event :=
  if props.clearOnUnmount then
    let st' : DropzoneAreaState := { fileObjects := [] }
    (st', notifyFileChange props st')
  else
    (st, [])

/-- A post-mount operation on the component: an `onAdd` event from the
wrapped base (handled by `addFiles`), an `onDelete` event (handled by
`deleteFile`), or unmounting. -/
inductive Op where
  | add (newFileObjects : List FileObject)
  | delete (removedFileObj : FileObject) (removedFileObjIdx : Int)
  | unmount
deriving Repr

/-- The state transition of a single operation (events discarded). -/
def applyOp (props : Props) (st : DropzoneAreaState) : Op → DropzoneAreaState
  | Op.add newFileObjects => (addFiles props st newFileObjects).1
  | Op.delete removedFileObj removedFileObjIdx =>
      (deleteFile props st removedFileObj removedFileObjIdx).1
  | Op.unmount => (componentWillUnmount props st).1

/-- Run a sequence of operations from a state. -/
def runOps (props : Props) (st : DropzoneAreaState) : List Op → DropzoneAreaState
  | [] => st
  | op :: ops => runOps props (applyOp props st op) ops

/-! ## Helper lemmas -/

theorem promiseAll_ok_length {α β : Type} (f : α → Except Unit β) :
    ∀ (l : List α) (bs : List β), promiseAll f l = Except.ok bs →
    bs.length = l.length := by
  intro l
  induction l with
  | nil =>
    intro bs h
    simp only [promiseAll] at h
    cases h
    rfl
  | cons a as ih =>
    intro bs h
    simp only [promiseAll] at h
    cases hfa : f a with
    | error e => rw [hfa] at h; cases h
    | ok b =>
      rw [hfa] at h
      cases hrec : promiseAll f as with
      | error e => rw [hrec] at h; cases h
      | ok cs =>
        rw [hrec] at h
        cases h
        simp [ih cs hrec]

theorem promiseAll_ok_get {α β : Type} (f : α → Except Unit β) :
    ∀ (l : List α) (bs : List β), promiseAll f l = Except.ok bs →
    ∀ (i : Nat) (h1 : i < l.length) (h2 : i < bs.length),
    f (l.get ⟨i, h1⟩) = Except.ok (bs.get ⟨i, h2⟩) := by
  intro l
  induction l with
  | nil =>
    intro bs h i h1 h2
    exact absurd h1 (Nat.not_lt_zero i)
  | cons a as ih =>
    intro bs h i h1 h2
    simp only [promiseAll] at h
    cases hfa : f a with
    | error e => rw [hfa] at h; cases h
    | ok b =>
      rw [hfa] at h
      cases hrec : promiseAll f as with
      | error e => rw [hrec] at h; cases h
      | ok cs =>
        rw [hrec] at h
        cases h
        cases i with
        | zero => simpa using hfa
        | succ j =>
          simp only [List.get_cons_succ]
          exact ih cs hrec j (Nat.lt_of_succ_lt_succ h1) (Nat.lt_of_succ_lt_succ h2)

theorem promiseAll_error_of_mem {α β : Type} (f : α → Except Unit β) :
    ∀ (l : List α) (x : α), x ∈ l → f x = Except.error () →
    promiseAll f l = Except.error () := by
  intro l
  induction l with
  | nil =>
    intro x hx
    exact absurd hx (List.not_mem_nil x)
  | cons a as ih =>
    intro x hx hfx
    rcases List.mem_cons.mp hx with heq | hmem
    · subst heq
      simp only [promiseAll, hfx]
    · simp only [promiseAll]
      cases hfa : f a with
      | error e => cases e; rfl
      | ok b => rw [ih x hmem hfx]

/-! ## Claims -/

/-- C1: mounting with an initial-files list of N entries that all resolve
and load successfully yields exactly the N resulting FileObjects in state,
in input order (entry i loads to record i), and exactly one change
notification carrying those N file handles in that order. -/
theorem c1_mount_all_ok (createFileFromUrl : String → Except Unit Nat)
    (readFile : Nat → Except Unit String) (props : Props)
    (fileObjs : List FileObject)
    (hok : promiseAll (resolveInitialFile createFileFromUrl readFile)
      props.initialFiles = Except.ok fileObjs)
    (hc : props.onChangeProvided = true) :
    (loadInitialFiles createFileFromUrl readFile props
      { fileObjects := [] }).1.fileObjects = fileObjs ∧
    fileObjs.length = props.initialFiles.length ∧
    (∀ (i : Nat) (h1 : i < props.initialFiles.length) (h2 : i < fileObjs.length),
      resolveInitialFile createFileFromUrl readFile (props.initialFiles.get ⟨i, h1⟩) =
        Except.ok (fileObjs.get ⟨i, h2⟩)) ∧
    (loadInitialFiles createFileFromUrl readFile props { fileObjects := [] }).2 =
      [Event.onChange (fileObjs.map (fun fileObject => fileObject.file))] := by
  refine ⟨?_, ?_, ?_, ?_⟩
  · simp [loadInitialFiles, hok]
  · exact promiseAll_ok_length _ _ _ hok
  · exact promiseAll_ok_get _ _ _ hok
  · simp [loadInitialFiles, hok, notifyFileChange, hc]

/-- C1 witness: a concrete mount with two initial files (a URL and a raw
handle), both loading successfully. -/
theorem c1_mount_all_ok_witness :
    promiseAll
        (resolveInitialFile (fun _ => Except.ok 7) (fun f => Except.ok (toString f)))
        [InitialFile.url "u", InitialFile.file 5] =
      Except.ok [⟨7, "7"⟩, ⟨5, "5"⟩] ∧
    (loadInitialFiles (fun _ => Except.ok 7) (fun f => Except.ok (toString f))
      { clearOnUnmount := true, filesLimit := 3,
        initialFiles := [InitialFile.url "u", InitialFile.file 5],
        onChangeProvided := true, onDeleteProvided := true }
      { fileObjects := [] }).1.fileObjects = [⟨7, "7"⟩, ⟨5, "5"⟩] :=
  ⟨by rfl,
    (c1_mount_all_ok (fun _ => Except.ok 7) (fun f => Except.ok (toString f))
      { clearOnUnmount := true, filesLimit := 3,
        initialFiles := [InitialFile.url "u", InitialFile.file 5],
        onChangeProvided := true, onDeleteProvided := true }
      [⟨7, "7"⟩, ⟨5, "5"⟩] (by rfl) rfl).1⟩

/-- C2: if some entry of the initial-files list fails to resolve or load,
mount-time hydration commits zero records, fires no callback, and only logs
the failure. -/
theorem c2_mount_failure (createFileFromUrl : String → Except Unit Nat)
    (readFile : Nat → Except Unit String) (props : Props) (x : InitialFile)
    (hmem : x ∈ props.initialFiles)
    (hfail : resolveInitialFile createFileFromUrl readFile x = Except.error ()) :
    (loadInitialFiles createFileFromUrl readFile props
      { fileObjects := [] }).1.fileObjects = [] ∧
    (loadInitialFiles createFileFromUrl readFile props
      { fileObjects := [] }).2 = [Event.log] := by
  have herr := promiseAll_error_of_mem
    (resolveInitialFile createFileFromUrl readFile) props.initialFiles x hmem hfail
  constructor
  · simp [loadInitialFiles, herr]
  · simp [loadInitialFiles, herr]

/-- C2 witness: a concrete mount where the second entry fails to load. -/
theorem c2_mount_failure_witness :
    InitialFile.file 5 ∈ [InitialFile.url "u", InitialFile.file 5] ∧
    resolveInitialFile (fun _ => Except.ok 7)
      (fun f => if f = 7 then Except.ok "d" else Except.error ())
      (InitialFile.file 5) = Except.error () ∧
    (loadInitialFiles (fun _ => Except.ok 7)
      (fun f => if f = 7 then Except.ok "d" else Except.error ())
      { clearOnUnmount := true, filesLimit := 3,
        initialFiles := [InitialFile.url "u", InitialFile.file 5],
        onChangeProvided := true, onDeleteProvided := true }
      { fileObjects := [] }).2 = [Event.log] :=
  ⟨by decide, by rfl,
    (c2_mount_failure (fun _ => Except.ok 7)
      (fun f => if f = 7 then Except.ok "d" else Except.error ())
      { clearOnUnmount := true, filesLimit := 3,
        initialFiles := [InitialFile.url "u", InitialFile.file 5],
        onChangeProvided := true, onDeleteProvided := true }
      (InitialFile.file 5) (by decide) (by rfl)).2⟩

/-- C3 counterexample: with `filesLimit = 1`, adding the batch
`[⟨0, "a"⟩, ⟨1, "b"⟩]` leaves state `[⟨0, "a"⟩]` — the FIRST record of the
batch — not `[⟨1, "b"⟩]`, the most recently added file of that call, so the
claim as stated is false. -/
theorem c3_counterexample :
    (addFiles
      { clearOnUnmount := true, filesLimit := 1, initialFiles := [],
        onChangeProvided := true, onDeleteProvided := true }
      { fileObjects := [] }
      [⟨0, "a"⟩, ⟨1, "b"⟩]).1.fileObjects ≠ [⟨1, "b"⟩] ∧
    (addFiles
      { clearOnUnmount := true, filesLimit := 1, initialFiles := [],
        onChangeProvided := true, onDeleteProvided := true }
      { fileObjects := [] }
      [⟨0, "a"⟩, ⟨1, "b"⟩]).1.fileObjects = [⟨0, "a"⟩] := by
  constructor
  · decide
  · decide

/-- C3 amended: for every prior state and every non-empty incoming batch,
`addFiles` under `filesLimit = 1` replaces the entire list so that state
afterwards contains exactly the FIRST record of the incoming batch. -/
theorem c3_add_limit_one (props : Props) (st : DropzoneAreaState)
    (newFileObjects : List FileObject) (hlim : props.filesLimit = 1)
    (hne : newFileObjects ≠ []) :
    (addFiles props st newFileObjects).1.fileObjects =
      [newFileObjects.head hne] := by
  cases newFileObjects with
  | nil => exact absurd rfl hne
  | cons a rest =>
    simp [addFiles, hlim, List.headI]

/-- C3 witness: a concrete limit-1 add of a two-record batch keeps the first. -/
theorem c3_add_limit_one_witness :
    ([⟨0, "a"⟩, ⟨1, "b"⟩] : List FileObject) ≠ [] ∧
    (addFiles
      { clearOnUnmount := true, filesLimit := 1, initialFiles := [],
        onChangeProvided := true, onDeleteProvided := true }
      { fileObjects := [⟨9, "z"⟩] }
      [⟨0, "a"⟩, ⟨1, "b"⟩]).1.fileObjects = [⟨0, "a"⟩] :=
  ⟨by decide,
    c3_add_limit_one
      { clearOnUnmount := true, filesLimit := 1, initialFiles := [],
        onChangeProvided := true, onDeleteProvided := true }
      { fileObjects := [⟨9, "z"⟩] }
      [⟨0, "a"⟩, ⟨1, "b"⟩] rfl (by decide)⟩

/-- C6: unmounting with `clearOnUnmount = true` (which is the default of
`defaultProps`) clears the state and fires exactly one change notification
with the empty list; with `clearOnUnmount = false` it fires nothing and
leaves the state untouched. -/
theorem c6_unmount (props : Props) (st : DropzoneAreaState)
    (hc : props.onChangeProvided = true) :
    defaultProps.clearOnUnmount = true ∧
    (props.clearOnUnmount = true →
      componentWillUnmount props st =
        ({ fileObjects := [] }, [Event.onChange []])) ∧
    (props.clearOnUnmount = false →
      componentWillUnmount props st = (st, [])) := by
  refine ⟨rfl, ?_, ?_⟩
  · intro h
    simp [componentWillUnmount, h, notifyFileChange, hc]
  · intro h
    simp [componentWillUnmount, h]

/-- C6 witness: a concrete unmount with a non-empty state, in both modes. -/
theorem c6_unmount_witness :
    componentWillUnmount
      { clearOnUnmount := true, filesLimit := 3, initialFiles := [],
        onChangeProvided := true, onDeleteProvided := true }
      { fileObjects := [⟨4, "d"⟩] } =
      ({ fileObjects := [] }, [Event.onChange []]) ∧
    componentWillUnmount
      { clearOnUnmount := false, filesLimit := 3, initialFiles := [],
        onChangeProvided := true, onDeleteProvided := true }
      { fileObjects := [⟨4, "d"⟩] } = ({ fileObjects := [⟨4, "d"⟩] }, []) :=
  ⟨(c6_unmount
      { clearOnUnmount := true, filesLimit := 3, initialFiles := [],
        onChangeProvided := true, onDeleteProvided := true }
      { fileObjects := [⟨4, "d"⟩] } rfl).2.1 rfl,
   (c6_unmount
      { clearOnUnmount := false, filesLimit := 3, initialFiles := [],
        onChangeProvided := true, onDeleteProvided := true }
      { fileObjects := [⟨4, "d"⟩] } rfl).2.2 rfl⟩

/-- C7: with a file limit greater than 1, `addFiles` appends the incoming
batch after the existing entries, leaving every prior entry present in its
original relative order. -/
theorem c7_add_appends (props : Props) (st : DropzoneAreaState)
    (newFileObjects : List FileObject) (hlim : 1 < props.filesLimit) :
    (addFiles props st newFileObjects).1.fileObjects =
      st.fileObjects ++ newFileObjects := by
  simp [addFiles, not_le.mpr hlim]

/-- C7 witness: a concrete append under the default limit 3. -/
theorem c7_add_appends_witness :
    (1 : Int) < 3 ∧
    (addFiles
      { clearOnUnmount := true, filesLimit := 3, initialFiles := [],
        onChangeProvided := true, onDeleteProvided := true }
      { fileObjects := [⟨0, "a"⟩] }
      [⟨1, "b"⟩, ⟨2, "c"⟩]).1.fileObjects = [⟨0, "a"⟩] ++ [⟨1, "b"⟩, ⟨2, "c"⟩] :=
  ⟨by decide,
    c7_add_appends
      { clearOnUnmount := true, filesLimit := 3, initialFiles := [],
        onChangeProvided := true, onDeleteProvided := true }
      { fileObjects := [⟨0, "a"⟩] }
      [⟨1, "b"⟩, ⟨2, "c"⟩] (by decide)⟩

/-- C10: for every file limit at most 1 (including 0 and negative limits)
and every non-empty incoming batch, `addFiles` is in single-file mode: the
resulting state is exactly the one-element list holding the first record of
the batch, regardless of prior state. -/
theorem c10_add_limit_le_one (props : Props) (st : DropzoneAreaState)
    (newFileObjects : List FileObject) (hlim : props.filesLimit ≤ 1)
    (hne : newFileObjects ≠ []) :
    (addFiles props st newFileObjects).1.fileObjects =
      [newFileObjects.head hne] := by
  cases newFileObjects with
  | nil => exact absurd rfl hne
  | cons a rest =>
    simp [addFiles, hlim, List.headI]

/-- C10 witness: a concrete add under a negative limit replaces a non-empty
prior state with the batch head. -/
theorem c10_add_limit_le_one_witness :
    (-2 : Int) ≤ 1 ∧
    (addFiles
      { clearOnUnmount := true, filesLimit := -2, initialFiles := [],
        onChangeProvided := true, onDeleteProvided := true }
      { fileObjects := [⟨9, "z"⟩, ⟨8, "y"⟩] }
      [⟨0, "a"⟩, ⟨1, "b"⟩]).1.fileObjects = [⟨0, "a"⟩] :=
  ⟨by decide,
    c10_add_limit_le_one
      { clearOnUnmount := true, filesLimit := -2, initialFiles := [],
        onChangeProvided := true, onDeleteProvided := true }
      { fileObjects := [⟨9, "z"⟩, ⟨8, "y"⟩] }
      [⟨0, "a"⟩, ⟨1, "b"⟩] (by decide) (by decide)⟩

theorem filterNotIndex_all_ne (removedFileObjIdx : Int) :
    ∀ (l : List FileObject) (n : Nat),
    (∀ k : Nat, k < l.length → ((n + k : Nat) : Int) ≠ removedFileObjIdx) →
    filterNotIndex removedFileObjIdx n l = l := by
  intro l
  induction l with
  | nil => intro n _; rfl
  | cons a rest ih =>
    intro n h
    have h0 : (n : Int) ≠ removedFileObjIdx := by
      have := h 0 (by simp)
      simpa using this
    simp only [filterNotIndex, if_pos h0]
    rw [ih (n + 1)]
    intro k hk
    have := h (k + 1) (by simpa using Nat.succ_lt_succ hk)
    have harith : n + (k + 1) = n + 1 + k := by omega
    rwa [harith] at this

theorem filterNotIndex_eraseIdx :
    ∀ (l : List FileObject) (n k : Nat), k < l.length →
    filterNotIndex ((n + k : Nat) : Int) n l = l.eraseIdx k := by
  intro l
  induction l with
  | nil =>
    intro n k hk
    exact absurd hk (Nat.not_lt_zero k)
  | cons a rest ih =>
    intro n k hk
    cases k with
    | zero =>
      have hcond : ¬ ((n : Int) ≠ ((n + 0 : Nat) : Int)) := by
        simp
      simp only [filterNotIndex, if_neg hcond, List.eraseIdx_cons_zero]
      apply filterNotIndex_all_ne
      intro j _
      push_cast
      omega
    | succ j =>
      have hcond : (n : Int) ≠ ((n + (j + 1) : Nat) : Int) := by
        push_cast
        omega
      have harith : n + (j + 1) = (n + 1) + j := by omega
      simp only [filterNotIndex, if_pos hcond, List.eraseIdx_cons_succ]
      rw [harith, ih (n + 1) j (Nat.lt_of_succ_lt_succ hk)]

/-- C4: deleting the record at a valid index i removes exactly that entry
(the rest keep their relative order, as `eraseIdx` states), fires the
delete callback with that entry's file handle, then fires the change
notifier with the updated list. -/
theorem c4_delete_valid_index (props : Props) (st : DropzoneAreaState)
    (i : Nat) (h : i < st.fileObjects.length)
    (hc : props.onChangeProvided = true) (hd : props.onDeleteProvided = true) :
    (deleteFile props st (st.fileObjects.get ⟨i, h⟩) (i : Int)).1.fileObjects =
      st.fileObjects.eraseIdx i ∧
    (deleteFile props st (st.fileObjects.get ⟨i, h⟩) (i : Int)).2 =
      [Event.onDelete (st.fileObjects.get ⟨i, h⟩).file,
       Event.onChange ((st.fileObjects.eraseIdx i).map
         (fun fileObject => fileObject.file))] := by
  have herase : filterNotIndex (i : Int) 0 st.fileObjects =
      st.fileObjects.eraseIdx i := by
    have := filterNotIndex_eraseIdx st.fileObjects 0 i h
    simpa using this
  constructor
  · simp [deleteFile, herase]
  · simp [deleteFile, herase, hd, notifyFileChange, hc]

/-- C4 witness: deleting index 1 of a concrete three-element state. -/
theorem c4_delete_valid_index_witness :
    (1 : Nat) < 3 ∧
    (deleteFile
      { clearOnUnmount := true, filesLimit := 3, initialFiles := [],
        onChangeProvided := true, onDeleteProvided := true }
      { fileObjects := [⟨0, "a"⟩, ⟨1, "b"⟩, ⟨2, "c"⟩] }
      (([⟨0, "a"⟩, ⟨1, "b"⟩, ⟨2, "c"⟩] : List FileObject).get ⟨1, by decide⟩)
      (1 : Int)).1.fileObjects = [⟨0, "a"⟩, ⟨2, "c"⟩] ∧
    (deleteFile
      { clearOnUnmount := true, filesLimit := 3, initialFiles := [],
        onChangeProvided := true, onDeleteProvided := true }
      { fileObjects := [⟨0, "a"⟩, ⟨1, "b"⟩, ⟨2, "c"⟩] }
      (([⟨0, "a"⟩, ⟨1, "b"⟩, ⟨2, "c"⟩] : List FileObject).get ⟨1, by decide⟩)
      (1 : Int)).2 = [Event.onDelete 1, Event.onChange [0, 2]] := by
  refine ⟨by decide, ?_, ?_⟩
  · exact (c4_delete_valid_index
      { clearOnUnmount := true, filesLimit := 3, initialFiles := [],
        onChangeProvided := true, onDeleteProvided := true }
      { fileObjects := [⟨0, "a"⟩, ⟨1, "b"⟩, ⟨2, "c"⟩] }
      1 (by decide) rfl rfl).1
  · exact (c4_delete_valid_index
      { clearOnUnmount := true, filesLimit := 3, initialFiles := [],
        onChangeProvided := true, onDeleteProvided := true }
      { fileObjects := [⟨0, "a"⟩, ⟨1, "b"⟩, ⟨2, "c"⟩] }
      1 (by decide) rfl rfl).2

/-- C9: deleting with an out-of-range index (negative or at least the state
length) leaves the state unchanged, yet still fires the delete callback
with the passed record's file handle and the change notifier with the
unchanged list. -/
theorem c9_delete_out_of_range (props : Props) (st : DropzoneAreaState)
    (removedFileObj : FileObject) (removedFileObjIdx : Int)
    (hout : removedFileObjIdx < 0 ∨
      (st.fileObjects.length : Int) ≤ removedFileObjIdx)
    (hc : props.onChangeProvided = true) (hd : props.onDeleteProvided = true) :
    (deleteFile props st removedFileObj removedFileObjIdx).1 = st ∧
    (deleteFile props st removedFileObj removedFileObjIdx).2 =
      [Event.onDelete removedFileObj.file,
       Event.onChange (st.fileObjects.map (fun fileObject => fileObject.file))] := by
  have hkeep : filterNotIndex removedFileObjIdx 0 st.fileObjects =
      st.fileObjects := by
    apply filterNotIndex_all_ne
    intro k hk
    rcases hout with hneg | hbig
    · push_cast
      omega
    · push_cast
      omega
  constructor
  · simp [deleteFile, hkeep]
  · simp [deleteFile, hkeep, hd, notifyFileChange, hc]

/-- C9 witness: deleting index -1 and index 5 of a concrete two-element
state both leave it unchanged while still firing both callbacks. -/
theorem c9_delete_out_of_range_witness :
    ((-1 : Int) < 0 ∨ ((2 : Nat) : Int) ≤ -1) ∧
    (deleteFile
      { clearOnUnmount := true, filesLimit := 3, initialFiles := [],
        onChangeProvided := true, onDeleteProvided := true }
      { fileObjects := [⟨0, "a"⟩, ⟨1, "b"⟩] } ⟨7, "q"⟩ (-1)).1 =
      { fileObjects := [⟨0, "a"⟩, ⟨1, "b"⟩] } ∧
    (deleteFile
      { clearOnUnmount := true, filesLimit := 3, initialFiles := [],
        onChangeProvided := true, onDeleteProvided := true }
      { fileObjects := [⟨0, "a"⟩, ⟨1, "b"⟩] } ⟨7, "q"⟩ (-1)).2 =
      [Event.onDelete 7, Event.onChange [0, 1]] := by
  refine ⟨by decide, ?_, ?_⟩
  · exact (c9_delete_out_of_range
      { clearOnUnmount := true, filesLimit := 3, initialFiles := [],
        onChangeProvided := true, onDeleteProvided := true }
      { fileObjects := [⟨0, "a"⟩, ⟨1, "b"⟩] } ⟨7, "q"⟩ (-1)
      (Or.inl (by decide)) rfl rfl).1
  · exact (c9_delete_out_of_range
      { clearOnUnmount := true, filesLimit := 3, initialFiles := [],
        onChangeProvided := true, onDeleteProvided := true }
      { fileObjects := [⟨0, "a"⟩, ⟨1, "b"⟩] } ⟨7, "q"⟩ (-1)
      (Or.inl (by decide)) rfl rfl).2

theorem filterNotIndex_length_le (removedFileObjIdx : Int) :
    ∀ (l : List FileObject) (n : Nat),
    (filterNotIndex removedFileObjIdx n l).length ≤ l.length := by
  intro l
  induction l with
  | nil => intro n; simp [filterNotIndex]
  | cons a rest ih =>
    intro n
    simp only [filterNotIndex]
    by_cases hcond : (n : Int) ≠ removedFileObjIdx
    · rw [if_pos hcond]
      simpa using ih (n + 1)
    · rw [if_neg hcond]
      exact le_trans (ih (n + 1)) (Nat.le_succ _)

theorem applyOp_length_le_one (props : Props) (hlim : props.filesLimit = 1)
    (st : DropzoneAreaState) (hst : st.fileObjects.length ≤ 1) (op : Op) :
    (applyOp props st op).fileObjects.length ≤ 1 := by
  cases op with
  | add newFileObjects =>
    have hle : props.filesLimit ≤ 1 := le_of_eq hlim
    simp [applyOp, addFiles, hle]
  | delete removedFileObj removedFileObjIdx =>
    have hfil := filterNotIndex_length_le removedFileObjIdx st.fileObjects 0
    simp only [applyOp, deleteFile]
    omega
  | unmount =>
    by_cases hcl : props.clearOnUnmount = true
    · simp [applyOp, componentWillUnmount, hcl]
    · simp only [applyOp, componentWillUnmount]
      rw [if_neg hcl]
      exact hst

theorem runOps_length_le_one (props : Props) (hlim : props.filesLimit = 1) :
    ∀ (ops : List Op) (st : DropzoneAreaState), st.fileObjects.length ≤ 1 →
    (runOps props st ops).fileObjects.length ≤ 1 := by
  intro ops
  induction ops with
  | nil => intro st hst; exact hst
  | cons op rest ih =>
    intro st hst
    exact ih _ (applyOp_length_le_one props hlim st hst op)

theorem mountState_length_le (createFileFromUrl : String → Except Unit Nat)
    (readFile : Nat → Except Unit String) (props : Props) :
    (mountState createFileFromUrl readFile props).fileObjects.length ≤
      props.initialFiles.length := by
  unfold mountState loadInitialFiles
  cases h : promiseAll (resolveInitialFile createFileFromUrl readFile)
      props.initialFiles with
  | ok fileObjs =>
    simp [le_of_eq (promiseAll_ok_length _ _ _ h)]
  | error e => simp

/-- C5 counterexample: with `filesLimit = 1` and a two-entry initial-files
list that loads fine, mount-time hydration alone already commits two
records from the empty initial state, so the state length exceeds 1 and
the claimed invariant is false as stated. -/
theorem c5_counterexample :
    ({ clearOnUnmount := true, filesLimit := 1,
       initialFiles := [InitialFile.file 0, InitialFile.file 1],
       onChangeProvided := true, onDeleteProvided := true } : Props).filesLimit = 1 ∧
    (mountState (fun _ => Except.ok 0) (fun _ => Except.ok "")
      { clearOnUnmount := true, filesLimit := 1,
        initialFiles := [InitialFile.file 0, InitialFile.file 1],
        onChangeProvided := true, onDeleteProvided := true }).fileObjects.length = 2 :=
  ⟨rfl, rfl⟩

/-- C5 amended: with `filesLimit = 1`, if the initial-files list has at most
one entry then the state length never exceeds 1 after mount-time hydration
from the empty initial state followed by any sequence of addFiles,
deleteFile, and unmount operations.  (Hydration itself ignores the limit,
so the restriction on the initial list is necessary.) -/
theorem c5_invariant_limit_one (createFileFromUrl : String → Except Unit Nat)
    (readFile : Nat → Except Unit String) (props : Props)
    (hlim : props.filesLimit = 1) (hinit : props.initialFiles.length ≤ 1)
    (ops : List Op) :
    (runOps props (mountState createFileFromUrl readFile props)
      ops).fileObjects.length ≤ 1 := by
  apply runOps_length_le_one props hlim
  exact le_trans (mountState_length_le createFileFromUrl readFile props) hinit

/-- C5 witness: a concrete run (one initial file, a two-record add, an
out-of-range delete, an unmount) under limit 1 stays within one record. -/
theorem c5_invariant_limit_one_witness :
    ({ clearOnUnmount := false, filesLimit := 1,
       initialFiles := [InitialFile.file 0],
       onChangeProvided := true, onDeleteProvided := true } : Props).filesLimit = 1 ∧
    ([InitialFile.file 0] : List InitialFile).length ≤ 1 ∧
    (runOps
      { clearOnUnmount := false, filesLimit := 1,
        initialFiles := [InitialFile.file 0],
        onChangeProvided := true, onDeleteProvided := true }
      (mountState (fun _ => Except.ok 0) (fun _ => Except.ok "")
        { clearOnUnmount := false, filesLimit := 1,
          initialFiles := [InitialFile.file 0],
          onChangeProvided := true, onDeleteProvided := true })
      [Op.add [⟨1, "b"⟩, ⟨2, "c"⟩], Op.delete ⟨1, "b"⟩ 5,
       Op.unmount]).fileObjects.length ≤ 1 :=
  ⟨rfl, by decide,
    c5_invariant_limit_one (fun _ => Except.ok 0) (fun _ => Except.ok "")
      { clearOnUnmount := false, filesLimit := 1,
        initialFiles := [InitialFile.file 0],
        onChangeProvided := true, onDeleteProvided := true }
      rfl (by decide)
      [Op.add [⟨1, "b"⟩, ⟨2, "c"⟩], Op.delete ⟨1, "b"⟩ 5, Op.unmount]⟩

theorem notifyFileChange_payload (props : Props) (st : DropzoneAreaState)
    (loadedFiles : List Nat)
    (hmem : Event.onChange loadedFiles ∈ notifyFileChange props st) :
    loadedFiles = st.fileObjects.map (fun fileObject => fileObject.file) := by
  by_cases hc : props.onChangeProvided = true
  · simp [notifyFileChange, hc] at hmem
    exact hmem
  · simp [notifyFileChange, hc] at hmem

/-- C8: every change notification fired by any handler (addFiles,
deleteFile, mount-time hydration, unmount clearing) carries exactly the
file handles of the handler's resulting state, in state order — the map of
`fileObject.file` over the new list, never the preview data. -/
theorem c8_change_payload (createFileFromUrl : String → Except Unit Nat)
    (readFile : Nat → Except Unit String) (props : Props)
    (st : DropzoneAreaState) (newFileObjects : List FileObject)
    (removedFileObj : FileObject) (removedFileObjIdx : Int) :
    (∀ loadedFiles, Event.onChange loadedFiles ∈
        (addFiles props st newFileObjects).2 →
      loadedFiles = (addFiles props st newFileObjects).1.fileObjects.map
        (fun fileObject => fileObject.file)) ∧
    (∀ loadedFiles, Event.onChange loadedFiles ∈
        (deleteFile props st removedFileObj removedFileObjIdx).2 →
      loadedFiles =
        (deleteFile props st removedFileObj removedFileObjIdx).1.fileObjects.map
          (fun fileObject => fileObject.file)) ∧
    (∀ loadedFiles, Event.onChange loadedFiles ∈
        (loadInitialFiles createFileFromUrl readFile props st).2 →
      loadedFiles =
        (loadInitialFiles createFileFromUrl readFile props st).1.fileObjects.map
          (fun fileObject => fileObject.file)) ∧
    (∀ loadedFiles, Event.onChange loadedFiles ∈
        (componentWillUnmount props st).2 →
      loadedFiles = (componentWillUnmount props st).1.fileObjects.map
        (fun fileObject => fileObject.file)) := by
  refine ⟨?_, ?_, ?_, ?_⟩
  · intro loadedFiles hmem
    exact notifyFileChange_payload props _ loadedFiles hmem
  · intro loadedFiles hmem
    have heq : (deleteFile props st removedFileObj removedFileObjIdx).2 =
        (if props.onDeleteProvided then [Event.onDelete removedFileObj.file]
          else []) ++
          notifyFileChange props
            (deleteFile props st removedFileObj removedFileObjIdx).1 := rfl
    rw [heq] at hmem
    rcases List.mem_append.mp hmem with hdel | hch
    · by_cases hd : props.onDeleteProvided = true <;> simp [hd] at hdel
    · exact notifyFileChange_payload props _ loadedFiles hch
  · intro loadedFiles hmem
    cases h : promiseAll (resolveInitialFile createFileFromUrl readFile)
        props.initialFiles with
    | ok fileObjs =>
      have h1 : (loadInitialFiles createFileFromUrl readFile props st).1 =
          { fileObjects := st.fileObjects ++ fileObjs } := by
        simp [loadInitialFiles, h]
      have h2 : (loadInitialFiles createFileFromUrl readFile props st).2 =
          notifyFileChange props { fileObjects := st.fileObjects ++ fileObjs } := by
        simp [loadInitialFiles, h]
      rw [h2] at hmem
      rw [h1]
      exact notifyFileChange_payload props _ loadedFiles hmem
    | error e =>
      have h2 : (loadInitialFiles createFileFromUrl readFile props st).2 =
          [Event.log] := by
        simp [loadInitialFiles, h]
      rw [h2] at hmem
      simp at hmem
  · intro loadedFiles hmem
    by_cases hcl : props.clearOnUnmount = true
    · have h2 : (componentWillUnmount props st).2 =
          notifyFileChange props (componentWillUnmount props st).1 := by
        simp [componentWillUnmount, hcl]
      rw [h2] at hmem
      exact notifyFileChange_payload props _ loadedFiles hmem
    · simp [componentWillUnmount, hcl] at hmem

/-- C8 witness: a concrete add fires a change notification whose payload is
exactly the file handles of the resulting state. -/
theorem c8_change_payload_witness :
    Event.onChange [5] ∈
      (addFiles
        { clearOnUnmount := true, filesLimit := 3, initialFiles := [],
          onChangeProvided := true, onDeleteProvided := true }
        { fileObjects := [] } [⟨5, "d"⟩]).2 ∧
    ([5] : List Nat) =
      (addFiles
        { clearOnUnmount := true, filesLimit := 3, initialFiles := [],
          onChangeProvided := true, onDeleteProvided := true }
        { fileObjects := [] } [⟨5, "d"⟩]).1.fileObjects.map
        (fun fileObject => fileObject.file) :=
  ⟨by decide,
    (c8_change_payload (fun _ => Except.ok 0) (fun _ => Except.ok "")
      { clearOnUnmount := true, filesLimit := 3, initialFiles := [],
        onChangeProvided := true, onDeleteProvided := true }
      { fileObjects := [] } [⟨5, "d"⟩] ⟨0, ""⟩ 0).1 [5] (by decide)⟩
